import Mathlib

/-!
Verification development for the ottochain-monitoring repository.

The definitions below are a shallow embedding of the TypeScript source:

* `packages/health-monitor/src/types.ts`    — shared data model
* `packages/health-monitor/src/cluster.ts`  — fork detection
  (`clusterKey`, `findMajority`, `detectForks`, `detectGL0Fork`,
  `pollNodeCluster`)
* `packages/health-monitor/src/snapshot.ts` — `StallTracker`
* `src/conditions/snapshots-stopped.ts`     — `detectSnapshotsStopped`
* `src/index.ts`                            — `runHealthCheck` tick loop
* `src/restart/orchestrator.ts`             — restart orchestrator
  (file absent from the sources; modelled from the specification, §4.7)

JavaScript `Map` objects preserve insertion order; they are embedded as
association lists where `set` updates in place and appends new keys.
Machine numbers (ordinals, timestamps in milliseconds) are embedded as
`Int`; the values involved are far below 2^53 so JS float arithmetic is
exact on them.
-/

namespace Otto

/-- Layer identifiers, from `types.ts` (`LayerName`). -/
inductive LayerName
  | GL0
  | ML0
  | CL1
  | DL1
deriving DecidableEq, Repr

/-- String form of a layer name, as used inside keys and descriptions. -/
def LayerName.str : LayerName → String
  | .GL0 => "GL0"
  | .ML0 => "ML0"
  | .CL1 => "CL1"
  | .DL1 => "DL1"

/-- Health conditions, from `types.ts` (`HealthCondition`). -/
inductive HealthCondition
  | HEALTHY
  | FORK_DETECTED
  | SNAPSHOT_STALL
  | NODE_UNREACHABLE
  | MINORITY_PARTITION
deriving DecidableEq, Repr

/-- Restart scopes, from `types.ts` (`RestartGroup`). -/
inductive RestartGroup
  | IndividualNode
  | FullLayer
  | FullMetagraph
deriving DecidableEq, Repr

/-- A peer entry returned by `/cluster/info`, from `types.ts` (`ClusterPeer`). -/
structure ClusterPeer where
  id    : String
  state : String
deriving DecidableEq, Repr

/-- One node's view of the cluster, from `types.ts` (`NodeClusterView`).
`error` is `undefined` (here `none`) on a successful poll. -/
structure NodeClusterView where
  nodeId   : String
  layer    : LayerName
  host     : String
  port     : Nat
  peers    : List ClusterPeer
  polledAt : String
  error    : Option String := none
deriving DecidableEq, Repr

/-- A per-layer snapshot of all views, from `types.ts` (`ClusterSnapshot`). -/
structure ClusterSnapshot where
  layer     : LayerName
  timestamp : String
  views     : List NodeClusterView
deriving DecidableEq, Repr

/-- A health event, from `types.ts` (`HealthEvent`). -/
structure HealthEvent where
  condition       : HealthCondition
  layer           : LayerName
  nodeIds         : List String
  description     : String
  timestamp       : String
  suggestedAction : Option RestartGroup := none
deriving DecidableEq, Repr

/-- JavaScript truthiness of a `string | undefined` value, as tested by
`if (view.error)` in `cluster.ts`: `undefined` and the empty string are
falsy, every other string is truthy. -/
def errTruthy : Option String → Bool
  | none => false
  | some s => s ≠ ""

/-- Lexicographic comparison of character lists, the order JavaScript's
default `Array.prototype.sort` applies to strings. -/
def charListLe : List Char → List Char → Bool
  | [], _ => true
  | _ :: _, [] => false
  | a :: as, b :: bs =>
    if a < b then true
    else if b < a then false
    else charListLe as bs

/-- String comparison used to normalize peer-id lists. -/
def strLe (a b : String) : Bool := charListLe a.data b.data

/-- Ascending sort of a string list, the embedding of JS `.sort()`. -/
def sortStrings (l : List String) : List String :=
  l.insertionSort (fun a b => strLe a b = true)

/-- Canonical key for a cluster view (`cluster.ts`, `clusterKey`): for an
error view `ERROR:<nodeId>`; otherwise the sorted peer ids joined with
commas, or `EMPTY` when there are no peers (JS `ids || 'EMPTY'`). -/
def clusterKey (view : NodeClusterView) : String :=
  if errTruthy view.error then "ERROR:" ++ view.nodeId
  else
    let ids := String.intercalate ","
      (sortStrings (view.peers.map (fun p => p.id)))
    if ids = "" then "EMPTY" else ids

/-- Insertion-ordered map update, the embedding of JS
`group = map.get(key) ?? []; group.push(x); map.set(key, group)`:
an existing key keeps its position, a new key is appended. -/
def insertGroup {κ : Type} [DecidableEq κ] :
    List (κ × List String) → κ → String → List (κ × List String)
  | [], key, x => [(key, [x])]
  | (k, ns) :: rest, key, x =>
    if k = key then (k, ns ++ [x]) :: rest
    else (k, ns) :: insertGroup rest key x

/-- The `keyGroups` map built by `findMajority` (`cluster.ts` lines
116–124): healthy views grouped by canonical key, error views skipped,
in insertion order. -/
def keyGroups (snapshot : ClusterSnapshot) : List (String × List String) :=
  snapshot.views.foldl
    (fun gs v =>
      if errTruthy v.error then gs
      else insertGroup gs (clusterKey v) v.nodeId)
    []

/-- Result record of `findMajority` (`cluster.ts`). -/
structure MajorityResult where
  majorityKey   : String
  majorityNodes : List String
  minorityNodes : List String
  unreachable   : List String
deriving DecidableEq, Repr

/-- The strict-`>` selection loop of `findMajority`: the accumulator is
replaced only when a group is strictly larger, so the first group of
maximal size wins. -/
def selectMajority {κ : Type} (init : κ × List String) :
    List (κ × List String) → κ × List String :=
  List.foldl (fun acc kg => if kg.2.length > acc.2.length then kg else acc) init

/-- Embedding of `findMajority` (`cluster.ts` lines 110–156). -/
def findMajority (snapshot : ClusterSnapshot) : MajorityResult :=
  let gs := keyGroups snapshot
  let unreachable :=
    (snapshot.views.filter (fun v => errTruthy v.error)).map (fun v => v.nodeId)
  if gs = [] then
    { majorityKey := "EMPTY", majorityNodes := [], minorityNodes := []
      unreachable := unreachable }
  else
    let maj := selectMajority ("", []) gs
    let minorityNodes :=
      (gs.filter (fun kg => kg.1 ≠ maj.1)).foldl (fun acc kg => acc ++ kg.2) []
    { majorityKey := maj.1, majorityNodes := maj.2, minorityNodes := minorityNodes
      unreachable := unreachable }

/-- Embedding of `detectForks` (`cluster.ts` lines 162–189): a
`FORK_DETECTED` event when the minority is non-empty, then a
`NODE_UNREACHABLE` event when the unreachable set is non-empty. -/
def detectForks (snapshot : ClusterSnapshot) : List HealthEvent :=
  let r := findMajority snapshot
  (if r.minorityNodes.length > 0 then
    [{ condition       := .FORK_DETECTED
       layer           := snapshot.layer
       nodeIds         := r.minorityNodes
       description     :=
         "Fork detected on " ++ snapshot.layer.str ++ ": node(s) " ++
           String.intercalate ", " r.minorityNodes ++
           " are in a minority partition (majority: " ++
           String.intercalate ", " r.majorityNodes ++ ")"
       timestamp       := snapshot.timestamp
       suggestedAction :=
         some (if r.minorityNodes.length < r.majorityNodes.length then
           .IndividualNode else .FullLayer) }]
  else []) ++
  (if r.unreachable.length > 0 then
    [{ condition       := .NODE_UNREACHABLE
       layer           := snapshot.layer
       nodeIds         := r.unreachable
       description     :=
         "Unreachable node(s) on " ++ snapshot.layer.str ++ ": " ++
           String.intercalate ", " r.unreachable
       timestamp       := snapshot.timestamp
       suggestedAction := some .IndividualNode }]
  else [])

/-- Per-node GL0 ordinal reading, from `cluster.ts` (`GL0NodeState`). -/
structure GL0NodeState where
  nodeId  : String
  ordinal : Int
deriving DecidableEq, Repr

/-- The `ordinalCount` map of `detectGL0Fork` (`cluster.ts` lines
205–210): nodes grouped by ordinal in insertion order. -/
def ordinalCount (states : List GL0NodeState) : List (Int × List String) :=
  states.foldl (fun gs s => insertGroup gs s.ordinal s.nodeId) []

/-- Embedding of `detectGL0Fork` (`cluster.ts` lines 201–235). -/
def detectGL0Fork (states : List GL0NodeState) (timestamp : String) :
    Option HealthEvent :=
  if states.length < 2 then none
  else
    let maj := selectMajority (0, []) (ordinalCount states)
    let minorityNodes :=
      (states.filter (fun s => s.ordinal ≠ maj.1)).map (fun s => s.nodeId)
    if minorityNodes.length = 0 then none
    else
      some
        { condition       := .FORK_DETECTED
          layer           := .GL0
          nodeIds         := minorityNodes
          description     :=
            "GL0 fork: node(s) " ++ String.intercalate ", " minorityNodes ++
              " are at divergent ordinals (majority: " ++ toString maj.1 ++ ")"
          timestamp       := timestamp
          suggestedAction := some .IndividualNode }

/-- Per-layer endpoint of a node, from `types.ts` (`LayerConfig`). -/
structure LayerConfig where
  name : LayerName
  port : Nat
deriving DecidableEq, Repr

/-- A monitored node, from `types.ts` (`NodeInfo`). -/
structure NodeInfo where
  nodeId : String
  host   : String
  layers : List LayerConfig
deriving DecidableEq, Repr

/-- Outcome of the injected `fetchFn` promise in `pollNodeCluster`: it
resolves with a JSON array, resolves with a non-array value (then
`Array.isArray(data)` is false), or rejects with an error whose string
form is `msg`. -/
inductive FetchOutcome
  | arr (peers : List ClusterPeer)
  | nonArr
  | thrown (msg : String)
deriving DecidableEq, Repr

/-- Embedding of `pollNodeCluster` (`cluster.ts` lines 34–74); the
network effect is replaced by the `outcome` the fetch would produce. -/
def pollNodeCluster (node : NodeInfo) (layer : LayerName)
    (outcome : FetchOutcome) (nowIso : String) : NodeClusterView :=
  match node.layers.find? (fun l => l.name = layer) with
  | none =>
    { nodeId := node.nodeId, layer := layer, host := node.host, port := 0
      peers := [], polledAt := nowIso
      error := some ("Layer " ++ layer.str ++ " not configured for node " ++
        node.nodeId) }
  | some layerConfig =>
    match outcome with
    | .arr data =>
      { nodeId := node.nodeId, layer := layer, host := node.host
        port := layerConfig.port, peers := data, polledAt := nowIso
        error := none }
    | .nonArr =>
      { nodeId := node.nodeId, layer := layer, host := node.host
        port := layerConfig.port, peers := [], polledAt := nowIso
        error := none }
    | .thrown msg =>
      { nodeId := node.nodeId, layer := layer, host := node.host
        port := layerConfig.port, peers := [], polledAt := nowIso
        error := some msg }

/-- An ordinal reading, from `types.ts` (`OrdinalSnapshot`). -/
structure OrdinalSnapshot where
  nodeId    : String
  layer     : LayerName
  ordinal   : Int
  timestamp : String
deriving DecidableEq, Repr

/-- Insertion-ordered map get, the embedding of JS `Map.prototype.get`:
the value at the first (unique) occurrence of the key. -/
def mapGet : List (String × Int) → String → Option Int
  | [], _ => none
  | (k', x) :: rest, k => if k' = k then some x else mapGet rest k

/-- Insertion-ordered map set, the embedding of JS `Map.prototype.set`:
an existing key is updated in place, a new key is appended. -/
def mapSet (m : List (String × Int)) (k : String) (x : Int) :
    List (String × Int) :=
  match m with
  | [] => [(k, x)]
  | (k', y) :: rest =>
    if k' = k then (k, x) :: rest else (k', y) :: mapSet rest k x

/-- The `StallTracker` state (`snapshot.ts` lines 81–128): last seen
ordinal and last change time per `nodeId:layer` key. -/
structure StallTracker where
  lastOrdinal : List (String × Int) := []
  lastChanged : List (String × Int) := []
deriving DecidableEq, Repr

/-- Embedding of `StallTracker.key`. -/
def StallTracker.key (nodeId : String) (layer : String) : String :=
  nodeId ++ ":" ++ layer

/-- Embedding of `StallTracker.update` (`snapshot.ts` lines 95–105);
`Date.now()` is the injected `now`. Returns the updated tracker and the
boolean result (`true` = the ordinal advanced, `false` = stalled). -/
def StallTracker.update (t : StallTracker) (snap : OrdinalSnapshot)
    (now : Int) : StallTracker × Bool :=
  let k := StallTracker.key snap.nodeId snap.layer.str
  match mapGet t.lastOrdinal k with
  | none =>
    ({ lastOrdinal := mapSet t.lastOrdinal k snap.ordinal
       lastChanged := mapSet t.lastChanged k now }, true)
  | some prev =>
    if snap.ordinal > prev then
      ({ lastOrdinal := mapSet t.lastOrdinal k snap.ordinal
         lastChanged := mapSet t.lastChanged k now }, true)
    else (t, false)

/-- Watchdog condition names, from `src/conditions` (the `condition`
field of `DetectionResult`). -/
inductive WatchCondition
  | ForkedCluster
  | SnapshotsStopped
  | UnhealthyNodes
deriving DecidableEq, Repr

/-- Watchdog layer identifiers, from `src/config.ts` (`Layer`). -/
inductive WatchLayer
  | gl0
  | ml0
  | cl1
  | dl1
deriving DecidableEq, Repr

/-- Restart scopes of the watchdog (`restartScope` strings used across
`src/conditions`). -/
inductive RestartScope
  | none
  | individualNode
  | fullLayer
  | fullMetagraph
deriving DecidableEq, Repr

/-- The `DetectionResult` record returned by the watchdog conditions;
its shape is fixed by the construction sites in
`src/conditions/forked-cluster.ts` and `snapshots-stopped.ts`. -/
structure DetectionResult where
  detected       : Bool
  condition      : WatchCondition
  details        : String
  restartScope   : RestartScope
  affectedNodes  : Option (List String) := Option.none
  affectedLayers : Option (List WatchLayer) := Option.none
deriving DecidableEq, Repr

/-- The module-level mutable state of `snapshots-stopped.ts` lines
16–17 (`lastKnownOrdinal`, initialized to `-1`, and
`lastOrdinalChangeTime`). -/
structure StallGuardState where
  lastKnownOrdinal      : Int
  lastOrdinalChangeTime : Int
deriving DecidableEq, Repr

/-- The node loop of `detectSnapshotsStopped` lines 28–37: the first
ordinal `≥ 0` in configured node order, `-1` when none. -/
def firstNonNegOrdinal : List Int → Int
  | [] => -1
  | o :: rest => if o ≥ 0 then o else firstNonNegOrdinal rest

/-- Embedding of `detectSnapshotsStopped`
(`src/conditions/snapshots-stopped.ts` lines 25–71). `ordinals` lists,
in configured node order, the value `getLatestOrdinal` would return for
each node (`-1` on failure); `nodeIps` is `config.nodes.map(n => n.ip)`;
`now` is `Date.now()` in ms. The stall test
`(now - lastOrdinalChangeTime) / 60000 >= snapshotStallMinutes` is
written multiplied out, which is equivalent over exact arithmetic; the
human-readable `details` text elides the source's float formatting. -/
def detectSnapshotsStopped (ordinals : List Int) (nodeIps : List String)
    (snapshotStallMinutes : Int) (st : StallGuardState) (now : Int) :
    StallGuardState × DetectionResult :=
  let currentOrdinal := firstNonNegOrdinal ordinals
  if currentOrdinal < 0 then
    (st, { detected := false, condition := .SnapshotsStopped
           details := "ML0 unreachable", restartScope := .none })
  else if currentOrdinal ≠ st.lastKnownOrdinal then
    ({ lastKnownOrdinal := currentOrdinal, lastOrdinalChangeTime := now },
     { detected := false, condition := .SnapshotsStopped
       details := "", restartScope := .none })
  else if now - st.lastOrdinalChangeTime ≥ snapshotStallMinutes * 60000 then
    (st, { detected := true, condition := .SnapshotsStopped
           details := "ML0 snapshots stalled at ordinal " ++
             toString currentOrdinal
           restartScope := .fullMetagraph
           affectedLayers := some [.ml0, .cl1, .dl1]
           affectedNodes := some nodeIps })
  else
    (st, { detected := false, condition := .SnapshotsStopped
           details := "", restartScope := .none })

/-- What one entry of the `conditions` loop in `runHealthCheck`
(`src/index.ts`) observes: whether `detect()` reported a detected
condition, and whether `executeRestart` then returned `true`
(restart performed) rather than `false` (skipped). -/
structure ConditionOutcome where
  detected  : Bool
  restarted : Bool
deriving DecidableEq, Repr

/-- Observable actions of one tick of `runHealthCheck`. -/
inductive TickAction
  | ranDetector (c : WatchCondition)
  | restartPerformed (c : WatchCondition)
deriving DecidableEq, Repr

/-- The `conditions` priority list of `runHealthCheck`
(`src/index.ts` lines 28–32). -/
def healthCheckOrder : List WatchCondition :=
  [.ForkedCluster, .SnapshotsStopped, .UnhealthyNodes]

/-- The `for (const condition of conditions)` loop of `runHealthCheck`
(`src/index.ts` lines 34–50): each detector runs in turn; on a detected
condition `executeRestart` is invoked, and only a performed restart
returns early — a skipped restart falls through to the next detector. -/
def runConditions : List (WatchCondition × ConditionOutcome) → List TickAction
  | [] => []
  | (c, o) :: rest =>
    if o.detected then
      if o.restarted then [.ranDetector c, .restartPerformed c]
      else .ranDetector c :: runConditions rest
    else .ranDetector c :: runConditions rest

/-- Embedding of `runHealthCheck` (`src/index.ts` lines 24–53), with the
detector and orchestrator effects abstracted into the per-condition
outcomes. -/
def runHealthCheck (fork stall unhealthy : ConditionOutcome) :
    List TickAction :=
  runConditions (healthCheckOrder.zip [fork, stall, unhealthy])

/-- A node entry of the watchdog config, from `src/config.ts`
(`NodeConfig`). -/
structure NodeConfig where
  name : String
  ip   : String
deriving DecidableEq, Repr

/-- Command-port (SSH) operations, from the specification §6.2. -/
inductive SshCommand
  | stop (host : String) (layer : WatchLayer)
  | startGenesis (host : String) (layer : WatchLayer)
  | startAndJoin (host : String) (layer : WatchLayer) (seedHost : String)
deriving DecidableEq, Repr

/-- A restart record, from the specification §3 (`RestartRecord`). -/
structure RestartRecord where
  scope      : RestartScope
  nodeIds    : List String
  startedAt  : Int
  finishedAt : Int
  failed     : Bool
deriving DecidableEq, Repr

/-- Orchestrator outcome, from the specification §4.7. -/
inductive RestartOutcome
  | Restarted
  | SkippedCooldown
  | SkippedRateLimit
  | Failed
deriving DecidableEq, Repr

/-- Modelled from the spec: the FullLayer procedure of §4.7 (stop all
nodes, start the first configured node as genesis, join the rest to it),
as the sequence of command-port invocations it issues. -/
def fullLayerCommands (nodes : List NodeConfig) (layer : WatchLayer) :
    List SshCommand :=
  nodes.map (fun n => .stop n.ip layer) ++
    match nodes with
    | [] => []
    | genesis :: joiners =>
      .startGenesis genesis.ip layer ::
        joiners.map (fun n => .startAndJoin n.ip layer genesis.ip)

/-- Modelled from the spec: the start phase of the FullLayer procedure
(steps 2–4 of §4.7), reused per layer by the FullMetagraph procedure. -/
def layerStartCommands (nodes : List NodeConfig) (layer : WatchLayer) :
    List SshCommand :=
  match nodes with
  | [] => []
  | genesis :: joiners =>
    .startGenesis genesis.ip layer ::
      joiners.map (fun n => .startAndJoin n.ip layer genesis.ip)

/-- Modelled from the spec: the FullMetagraph procedure of §4.7 — stop
order `[dl1, cl1, gl0, ml0]`, then start order `[ml0, gl0, cl1, dl1]`
running the FullLayer start phase per layer. -/
def fullMetagraphCommands (nodes : List NodeConfig) : List SshCommand :=
  (([WatchLayer.dl1, .cl1, .gl0, .ml0]).flatMap
    (fun layer => nodes.map (fun n => SshCommand.stop n.ip layer))) ++
  (([WatchLayer.ml0, .gl0, .cl1, .dl1]).flatMap
    (fun layer => layerStartCommands nodes layer))

/-- Modelled from the spec: the IndividualNode procedure of §4.7 — for
each target, stop it and start-and-join it to a deterministic seed (the
lowest-id node outside the affected set). -/
def individualNodeCommands (targets : List String) (layer : WatchLayer)
    (seedHost : String) : List SshCommand :=
  targets.flatMap (fun ip =>
    [.stop ip layer, .startAndJoin ip layer seedHost])

/-- Modelled from the spec: the command sequence the orchestrator issues
for a detection result, dispatching on `restartScope` (§4.7 step 3). -/
def restartCommands (nodes : List NodeConfig) (result : DetectionResult) :
    List SshCommand :=
  let layer := (result.affectedLayers.getD []).headD .ml0
  match result.restartScope with
  | .none => []
  | .individualNode =>
    let targets := result.affectedNodes.getD []
    let seed := (nodes.filter (fun n => ¬ targets.contains n.ip)).headD
      ⟨"", ""⟩
    individualNodeCommands targets layer seed.ip
  | .fullLayer => fullLayerCommands nodes layer
  | .fullMetagraph => fullMetagraphCommands nodes

/-- Modelled from the spec: the rate-limit gate and scope dispatch of
the restart orchestrator (§4.7 steps 2–3), reached once the cooldown
gate has passed. `records` is the history, most recent first; `now` is
`Date.now()` in ms; `dur ≥ 0` is the wall time the procedure takes, so
the new record has `finishedAt = now + dur`; `failAt = some i` makes the
`i`-th command fail, aborting the procedure there (§4.7 invariant). -/
def executeRestartGated (maxPerHour : Int) (nodes : List NodeConfig)
    (records : List RestartRecord) (result : DetectionResult)
    (now dur : Int) (failAt : Option Nat) :
    List RestartRecord × RestartOutcome × List SshCommand :=
  if maxPerHour ≤
      ((records.filter (fun r => now - r.startedAt < 3600000)).length : Int)
  then (records, .SkippedRateLimit, [])
  else
    let cmds := restartCommands nodes result
    let record (failed : Bool) : RestartRecord :=
      { scope := result.restartScope
        nodeIds := result.affectedNodes.getD []
        startedAt := now, finishedAt := now + dur, failed := failed }
    match failAt with
    | some i =>
      if i < cmds.length then
        (record true :: records, .Failed, cmds.take (i + 1))
      else (record false :: records, .Restarted, cmds)
    | Option.none => (record false :: records, .Restarted, cmds)

/-- Modelled from the spec: the restart orchestrator `executeRestart`
(`src/restart/orchestrator.ts`), whose source is absent from the
provided files — only its caller `runHealthCheck` is present.
Following §4.7: (1) if the most recent `RestartRecord.finishedAt` is
within `restartCooldownMinutes`, return `Skipped(cooldown)` issuing no
commands and leaving state unchanged; (2) if the number of records
started in the last rolling hour reaches `maxRestartsPerHour`, return
`Skipped(rate-limit)` likewise; (3) otherwise dispatch on the scope and
run the procedure. -/
def executeRestart (cooldownMinutes maxPerHour : Int)
    (nodes : List NodeConfig) (records : List RestartRecord)
    (result : DetectionResult) (now dur : Int) (failAt : Option Nat) :
    List RestartRecord × RestartOutcome × List SshCommand :=
  match records.head? with
  | some r =>
    if now - r.finishedAt < cooldownMinutes * 60000 then
      (records, .SkippedCooldown, [])
    else executeRestartGated maxPerHour nodes records result now dur failAt
  | Option.none =>
    executeRestartGated maxPerHour nodes records result now dur failAt

/-- The snapshot restricted to its successfully polled (non-error)
views. -/
def healthySnapshot (s : ClusterSnapshot) : ClusterSnapshot :=
  { layer := s.layer, timestamp := s.timestamp
    views := s.views.filter (fun v => !errTruthy v.error) }

/-- Node ids of the error views of a snapshot — the `unreachable` set of
`findMajority`. -/
def errorNodeIds (s : ClusterSnapshot) : List String :=
  (s.views.filter (fun v => errTruthy v.error)).map (fun v => v.nodeId)

/-- The `FORK_DETECTED` events among the results of `detectForks`. -/
def forkEvents (s : ClusterSnapshot) : List HealthEvent :=
  (detectForks s).filter
    (fun e => decide (e.condition = HealthCondition.FORK_DETECTED))

/-- The majority ordinal computed by `detectGL0Fork` (`cluster.ts` lines
212–219). -/
def gl0MajorityOrdinal (states : List GL0NodeState) : Int :=
  (selectMajority (0, []) (ordinalCount states)).1

/-- A sequence of `StallTracker.update` calls, each with its `Date.now()`
value, applied in order. -/
def applyUpdates (t : StallTracker) (updates : List (OrdinalSnapshot × Int)) :
    StallTracker :=
  updates.foldl (fun t su => (t.update su.1 su.2).1) t

/-- A healthy view over peers `ps`, used as concrete test input. -/
def mkView (id : String) (ps : List String) : NodeClusterView :=
  { nodeId := id, layer := .ML0, host := "n" ++ id, port := 9200
    peers := ps.map (fun p => ⟨p, "Ready"⟩), polledAt := "t" }

/-- An error view, used as concrete test input. -/
def mkErrView (id : String) : NodeClusterView :=
  { nodeId := id, layer := .ML0, host := "n" ++ id, port := 9200
    peers := [], polledAt := "t", error := some "timeout" }

/-- Concrete snapshot with a 2-vs-1 fork: nodes 1 and 2 see `{p1,p2}`,
node 3 sees `{p3}`. -/
def forkSnap : ClusterSnapshot :=
  { layer := .ML0, timestamp := "t"
    views := [mkView "1" ["p1", "p2"], mkView "2" ["p1", "p2"],
              mkView "3" ["p3"]] }

/-- The fork event `detectForks` emits for `forkSnap`. -/
def forkSnapEvent : HealthEvent :=
  { condition := .FORK_DETECTED
    layer := .ML0
    nodeIds := ["3"]
    description :=
      "Fork detected on ML0: node(s) 3 are in a minority partition (majority: 1, 2)"
    timestamp := "t"
    suggestedAction := some .IndividualNode }

/-- Concrete snapshot whose two healthy key groups tie at size one, with
the lexicographically larger key appearing first. -/
def tieSnap : ClusterSnapshot :=
  { layer := .ML0, timestamp := "t"
    views := [mkView "1" ["b"], mkView "2" ["a"]] }

/-- Concrete tracker state holding ordinal 5 for key `c:ML0`. -/
def trackerEx : StallTracker :=
  { lastOrdinal := [("c:ML0", 5)], lastChanged := [("c:ML0", 100)] }

/-- Concrete ordinal reading at ordinal 3 for node `c` on ML0. -/
def snapEx : OrdinalSnapshot :=
  { nodeId := "c", layer := .ML0, ordinal := 3, timestamp := "t" }

/-- Concrete stall-guard state: ordinal 500 last changed at t = 0 ms. -/
def stallStEx : StallGuardState :=
  { lastKnownOrdinal := 500, lastOrdinalChangeTime := 0 }

/-- Concrete node ip list for the watchdog examples. -/
def ipsEx : List String := ["10.0.0.1", "10.0.0.2"]

/-- Concrete node with only GL0 configured, used as poll input. -/
def nodeInfoEx : NodeInfo :=
  { nodeId := "1", host := "127.0.0.1", layers := [{ name := .GL0, port := 9000 }] }

/-- Concrete watchdog node list. -/
def nodesEx : List NodeConfig :=
  [{ name := "node1", ip := "10.0.0.1" }, { name := "node2", ip := "10.0.0.2" }]

/-- Concrete detection result asking for an individual-node restart. -/
def resEx : DetectionResult :=
  { detected := true, condition := .ForkedCluster, details := "fork"
    restartScope := .individualNode
    affectedNodes := some ["10.0.0.2"]
    affectedLayers := some [.ml0] }

/-- Concrete snapshot where every view is an error view. -/
def allErrSnap : ClusterSnapshot :=
  { layer := .ML0, timestamp := "t"
    views := [mkErrView "1", mkErrView "2", mkErrView "3"] }

/-- Concrete snapshot mixing one error view with two agreeing healthy
views. -/
def mixedSnap : ClusterSnapshot :=
  { layer := .ML0, timestamp := "t"
    views := [mkView "1" ["pa"], mkView "2" ["pa"], mkErrView "3"] }

/-! ### Supporting lemmas -/

theorem mapGet_mapSet (m : List (String × Int)) (k k' : String) (x : Int) :
    mapGet (mapSet m k x) k' = if k' = k then some x else mapGet m k' := by
  induction m with
  | nil =>
    simp only [mapSet, mapGet]
    by_cases h : k = k'
    · subst h
      simp
    · rw [if_neg h, if_neg (fun hh => h hh.symm)]
  | cons p rest ih =>
    obtain ⟨k₀, y⟩ := p
    simp only [mapSet]
    by_cases h₀ : k₀ = k
    · subst h₀
      simp only [if_pos rfl, mapGet]
      by_cases h : k₀ = k'
      · subst h
        simp
      · rw [if_neg h, if_neg h, if_neg (fun hh => h hh.symm)]
    · rw [if_neg h₀]
      simp only [mapGet]
      by_cases h : k₀ = k'
      · subst h
        rw [if_pos rfl, if_pos rfl, if_neg h₀]
      · rw [if_neg h, if_neg h, ih]

/-- Folding a body that skips elements satisfying `p` is folding the
plain body over the list with those elements filtered out. -/
theorem foldl_skip {α β : Type} (p : α → Bool) (f : β → α → β)
    (l : List α) (init : β) :
    l.foldl (fun b a => if p a then b else f b a) init =
      (l.filter (fun a => !p a)).foldl f init := by
  induction l generalizing init with
  | nil => rfl
  | cons a t ih =>
    by_cases h : p a <;> simp [List.filter, h, ih]

/-- Every node-group built by `insertGroup` stays non-empty. -/
theorem insertGroup_groups_ne {κ : Type} [DecidableEq κ]
    (gs : List (κ × List String)) (key : κ) (x : String)
    (h : ∀ g ∈ gs, g.2 ≠ []) :
    ∀ g ∈ insertGroup gs key x, g.2 ≠ [] := by
  induction gs with
  | nil =>
    intro g hg
    simp only [insertGroup, List.mem_singleton] at hg
    subst hg
    simp
  | cons p rest ih =>
    obtain ⟨k, ns⟩ := p
    intro g hg
    simp only [insertGroup] at hg
    by_cases hk : k = key
    · rw [if_pos hk] at hg
      rcases List.mem_cons.mp hg with h₁ | h₂
      · subst h₁
        simp
      · exact h g (List.mem_cons_of_mem _ h₂)
    · rw [if_neg hk] at hg
      rcases List.mem_cons.mp hg with h₁ | h₂
      · subst h₁
        exact h (k, ns) (List.mem_cons_self _ _)
      · exact ih (fun g' hg' => h g' (List.mem_cons_of_mem _ hg')) g h₂

/-- Every node-group of `keyGroups` is non-empty. -/
theorem keyGroups_groups_ne (s : ClusterSnapshot) :
    ∀ g ∈ keyGroups s, g.2 ≠ [] := by
  unfold keyGroups
  generalize hacc : ([] : List (String × List String)) = acc
  have hbase : ∀ g ∈ acc, g.2 ≠ [] := by
    subst hacc
    intro g hg
    simp at hg
  clear hacc
  induction s.views generalizing acc with
  | nil => exact hbase
  | cons v t ih =>
    simp only [List.foldl_cons]
    by_cases hv : errTruthy v.error
    · rw [if_pos hv]
      exact ih acc hbase
    · rw [if_neg hv]
      exact ih _ (insertGroup_groups_ne acc (clusterKey v) v.nodeId hbase)

/-- The strict-`>` selection fold keeps the first group of maximal size:
either nothing beat the seed, or the result splits the list with
strictly smaller groups before it and no larger group after it. -/
theorem selectMajority_spec {κ : Type} (init : κ × List String)
    (l : List (κ × List String)) :
    (selectMajority init l = init ∧
      ∀ g ∈ l, g.2.length ≤ init.2.length) ∨
    (∃ l₁ l₂, l = l₁ ++ selectMajority init l :: l₂ ∧
      init.2.length < (selectMajority init l).2.length ∧
      (∀ g ∈ l₁, g.2.length < (selectMajority init l).2.length) ∧
      (∀ g ∈ l₂, g.2.length ≤ (selectMajority init l).2.length)) := by
  induction l generalizing init with
  | nil => exact Or.inl ⟨rfl, by simp⟩
  | cons b t ih =>
    by_cases hb : b.2.length > init.2.length
    · have hsel : selectMajority init (b :: t) = selectMajority b t := by
        simp only [selectMajority, List.foldl_cons, if_pos hb]
    -- the seed is beaten by `b`; the result is the first maximum of `b :: t`
      rcases ih b with ⟨heq, hall⟩ | ⟨t₁, t₂, hsplit, hlt, hbefore, hafter⟩
      · refine Or.inr ⟨[], t, ?_, ?_, by simp, ?_⟩
        · rw [hsel, heq]
          simp
        · rw [hsel, heq]
          exact hb
        · intro g hg
          rw [hsel, heq]
          exact hall g hg
      · refine Or.inr ⟨b :: t₁, t₂, ?_, ?_, ?_, ?_⟩
        · rw [hsel, List.cons_append]
          exact congrArg (List.cons b) hsplit
        · rw [hsel]
          exact lt_trans hb hlt
        · intro g hg
          rw [hsel]
          rcases List.mem_cons.mp hg with h₁ | h₂
          · subst h₁
            exact hlt
          · exact hbefore g h₂
        · intro g hg
          rw [hsel]
          exact hafter g hg
    · have hsel : selectMajority init (b :: t) = selectMajority init t := by
        simp only [selectMajority, List.foldl_cons, if_neg hb]
      push_neg at hb
      rcases ih init with ⟨heq, hall⟩ | ⟨t₁, t₂, hsplit, hlt, hbefore, hafter⟩
      · refine Or.inl ⟨by rw [hsel, heq], ?_⟩
        intro g hg
        rcases List.mem_cons.mp hg with h₁ | h₂
        · subst h₁
          exact hb
        · exact hall g h₂
      · refine Or.inr ⟨b :: t₁, t₂, ?_, ?_, ?_, ?_⟩
        · rw [hsel, List.cons_append]
          exact congrArg (List.cons b) hsplit
        · rw [hsel]
          exact hlt
        · intro g hg
          rw [hsel]
          rcases List.mem_cons.mp hg with h₁ | h₂
          · subst h₁
            exact lt_of_le_of_lt hb hlt
          · exact hbefore g h₂
        · intro g hg
          rw [hsel]
          exact hafter g hg

/-- `firstNonNegOrdinal` either reports `-1` with every entry negative,
or returns the first non-negative entry of the list. -/
theorem firstNonNegOrdinal_spec (l : List Int) :
    (firstNonNegOrdinal l = -1 ∧ ∀ o ∈ l, o < 0) ∨
    (∃ l₁ l₂, l = l₁ ++ firstNonNegOrdinal l :: l₂ ∧
      0 ≤ firstNonNegOrdinal l ∧ ∀ o ∈ l₁, o < 0) := by
  induction l with
  | nil => exact Or.inl ⟨rfl, by simp⟩
  | cons o t ih =>
    by_cases ho : o ≥ 0
    · refine Or.inr ⟨[], t, ?_, ?_, by simp⟩
      · simp [firstNonNegOrdinal, ho]
      · rw [show firstNonNegOrdinal (o :: t) = o by
          simp [firstNonNegOrdinal, ho]]
        exact ho
    · have hsel : firstNonNegOrdinal (o :: t) = firstNonNegOrdinal t := by
        simp [firstNonNegOrdinal, ho]
      push_neg at ho
      rcases ih with ⟨heq, hall⟩ | ⟨l₁, l₂, hsplit, hnn, hneg⟩
      · refine Or.inl ⟨by rw [hsel, heq], ?_⟩
        intro x hx
        rcases List.mem_cons.mp hx with h₁ | h₂
        · subst h₁
          exact ho
        · exact hall x h₂
      · refine Or.inr ⟨o :: l₁, l₂, ?_, hsel ▸ hnn, ?_⟩
        · rw [hsel, List.cons_append]
          exact congrArg (List.cons o) hsplit
        · intro x hx
          rcases List.mem_cons.mp hx with h₁ | h₂
          · subst h₁
            exact ho
          · exact hneg x h₂

theorem charListLe_total :
    ∀ l₁ l₂ : List Char, charListLe l₁ l₂ = true ∨ charListLe l₂ l₁ = true
  | [], _ => Or.inl rfl
  | _ :: _, [] => Or.inr rfl
  | a :: as, b :: bs => by
    by_cases hab : a < b
    · exact Or.inl (by simp [charListLe, hab])
    · by_cases hba : b < a
      · exact Or.inr (by simp [charListLe, hba])
      · rcases charListLe_total as bs with h | h
        · exact Or.inl (by simp [charListLe, hab, hba, h])
        · exact Or.inr (by simp [charListLe, hab, hba, h])

theorem charListLe_trans :
    ∀ l₁ l₂ l₃ : List Char, charListLe l₁ l₂ = true →
      charListLe l₂ l₃ = true → charListLe l₁ l₃ = true
  | [], _, _, _, _ => rfl
  | _ :: _, [], _, h₁, _ => by simp [charListLe] at h₁
  | _ :: _, _ :: _, [], _, h₂ => by simp [charListLe] at h₂
  | a :: as, b :: bs, c :: cs, h₁, h₂ => by
    by_cases hab : a < b
    · by_cases hbc : b < c
      · simp [charListLe, lt_trans hab hbc]
      · by_cases hcb : c < b
        · simp [charListLe, hbc, hcb] at h₂
        · have hbc' : b = c := le_antisymm (not_lt.mp hcb) (not_lt.mp hbc)
          subst hbc'
          simp [charListLe, hab]
    · by_cases hba : b < a
      · simp [charListLe, hab, hba] at h₁
      · have hab' : a = b := le_antisymm (not_lt.mp hba) (not_lt.mp hab)
        subst hab'
        have h₁' : charListLe as bs = true := by
          simpa [charListLe, lt_irrefl] using h₁
        by_cases hbc : a < c
        · simp [charListLe, hbc]
        · by_cases hcb : c < a
          · simp [charListLe, hbc, hcb] at h₂
          · have h₂' : charListLe bs cs = true := by
              simpa [charListLe, hbc, hcb] using h₂
            simp [charListLe, hbc, hcb, charListLe_trans as bs cs h₁' h₂']

theorem charListLe_antisymm :
    ∀ l₁ l₂ : List Char, charListLe l₁ l₂ = true →
      charListLe l₂ l₁ = true → l₁ = l₂
  | [], [], _, _ => rfl
  | [], _ :: _, _, h₂ => by simp [charListLe] at h₂
  | _ :: _, [], h₁, _ => by simp [charListLe] at h₁
  | a :: as, b :: bs, h₁, h₂ => by
    by_cases hab : a < b
    · simp [charListLe, lt_asymm hab, hab] at h₂
    · by_cases hba : b < a
      · simp [charListLe, hab, hba] at h₁
      · have hab' : a = b := le_antisymm (not_lt.mp hba) (not_lt.mp hab)
        subst hab'
        have h₁' : charListLe as bs = true := by
          simpa [charListLe, lt_irrefl] using h₁
        have h₂' : charListLe bs as = true := by
          simpa [charListLe, lt_irrefl] using h₂
        rw [charListLe_antisymm as bs h₁' h₂']

instance : IsTotal String (fun a b => strLe a b = true) :=
  ⟨fun a b => charListLe_total a.data b.data⟩

instance : IsTrans String (fun a b => strLe a b = true) :=
  ⟨fun a b c => charListLe_trans a.data b.data c.data⟩

instance : IsAntisymm String (fun a b => strLe a b = true) :=
  ⟨fun a b h₁ h₂ => by
    cases a with
    | mk da =>
      cases b with
      | mk db =>
        have : da = db := charListLe_antisymm da db h₁ h₂
        rw [this]⟩

/-- Sorting with the JS string order is invariant under permutation of
the input. -/
theorem sortStrings_eq_of_perm {l₁ l₂ : List String} (h : l₁.Perm l₂) :
    sortStrings l₁ = sortStrings l₂ :=
  List.eq_of_perm_of_sorted
    ((List.perm_insertionSort _ l₁).trans
      (h.trans (List.perm_insertionSort _ l₂).symm))
    (List.sorted_insertionSort _ l₁) (List.sorted_insertionSort _ l₂)

/-- One `StallTracker.update` call never decreases the recorded
`lastOrdinal` of any key. -/
theorem update_lastOrdinal_mono (t : StallTracker) (snap : OrdinalSnapshot)
    (now : Int) (k : String) (v : Int)
    (h : mapGet t.lastOrdinal k = some v) :
    ∃ v', mapGet (t.update snap now).1.lastOrdinal k = some v' ∧ v ≤ v' := by
  unfold StallTracker.update
  cases hprev : mapGet t.lastOrdinal (StallTracker.key snap.nodeId snap.layer.str) with
  | none =>
    simp only [hprev]
    rw [mapGet_mapSet]
    by_cases hk : k = StallTracker.key snap.nodeId snap.layer.str
    · rw [hk] at h
      rw [h] at hprev
      exact absurd hprev (by simp)
    · exact ⟨v, by rw [if_neg hk]; exact h, le_refl v⟩
  | some prev =>
    simp only [hprev]
    by_cases hgt : snap.ordinal > prev
    · rw [if_pos hgt]
      simp only []
      rw [mapGet_mapSet]
      by_cases hk : k = StallTracker.key snap.nodeId snap.layer.str
      · refine ⟨snap.ordinal, by rw [if_pos hk], ?_⟩
        rw [hk] at h
        rw [h] at hprev
        have hv : v = prev := by
          injection hprev
        rw [hv]
        exact le_of_lt hgt
      · exact ⟨v, by rw [if_neg hk]; exact h, le_refl v⟩
    · rw [if_neg hgt]
      exact ⟨v, h, le_refl v⟩

/-- Grouping ignores error views: the key groups of a snapshot equal the
key groups of its healthy restriction. -/
theorem keyGroups_healthy (s : ClusterSnapshot) :
    keyGroups (healthySnapshot s) = keyGroups s := by
  unfold keyGroups healthySnapshot
  rw [foldl_skip, foldl_skip]
  simp [List.filter_filter]

/-- Majority and minority are computed from healthy views only. -/
theorem findMajority_healthy (s : ClusterSnapshot) :
    (findMajority (healthySnapshot s)).majorityKey =
      (findMajority s).majorityKey ∧
    (findMajority (healthySnapshot s)).majorityNodes =
      (findMajority s).majorityNodes ∧
    (findMajority (healthySnapshot s)).minorityNodes =
      (findMajority s).minorityNodes := by
  unfold findMajority
  rw [keyGroups_healthy]
  by_cases h : keyGroups s = [] <;> simp [h]

/-- The unreachable set of `findMajority` is the node ids of the error
views. -/
theorem findMajority_unreachable (s : ClusterSnapshot) :
    (findMajority s).unreachable = errorNodeIds s := by
  unfold findMajority errorNodeIds
  by_cases h : keyGroups s = [] <;> simp [h]

/-- The fork events of a snapshot coincide with the fork events of its
healthy restriction. -/
theorem forkEvents_healthy (s : ClusterSnapshot) :
    forkEvents s = forkEvents (healthySnapshot s) := by
  obtain ⟨h₁, h₂, h₃⟩ := findMajority_healthy s
  simp only [forkEvents, detectForks]
  rw [h₂, h₃]
  rw [List.filter_append, List.filter_append]
  congr 1
  by_cases hu : (findMajority s).unreachable.length > 0 <;>
    by_cases hu' : (findMajority (healthySnapshot s)).unreachable.length > 0 <;>
    simp [hu, hu']

/-! ### Claim theorems -/

/-- C2: for every `ClusterSnapshot` in which a fork is detected, the
emitted fork event carries `suggestedAction = IndividualNode` exactly
when the number of minority nodes is strictly less than the number of
majority nodes, and `suggestedAction = FullLayer` exactly when the
number of minority nodes is greater than or equal to the number of
majority nodes. -/
theorem fork_event_suggested_action (s : ClusterSnapshot) (e : HealthEvent)
    (he : e ∈ detectForks s)
    (hc : e.condition = HealthCondition.FORK_DETECTED) :
    (e.suggestedAction = some RestartGroup.IndividualNode ↔
      (findMajority s).minorityNodes.length <
        (findMajority s).majorityNodes.length) ∧
    (e.suggestedAction = some RestartGroup.FullLayer ↔
      (findMajority s).majorityNodes.length ≤
        (findMajority s).minorityNodes.length) := by
  simp only [detectForks] at he
  rw [List.mem_append] at he
  rcases he with hf | hu
  · by_cases hm : (findMajority s).minorityNodes.length > 0
    · rw [if_pos hm, List.mem_singleton] at hf
      subst hf
      by_cases hlt : (findMajority s).minorityNodes.length <
          (findMajority s).majorityNodes.length
      · have hnle : ¬ (findMajority s).majorityNodes.length ≤
            (findMajority s).minorityNodes.length := not_le.mpr hlt
        simp [hlt, hnle]
      · have hle : (findMajority s).majorityNodes.length ≤
            (findMajority s).minorityNodes.length := not_lt.mp hlt
        simp [hlt, hle]
    · rw [if_neg hm] at hf
      exact absurd hf (List.not_mem_nil e)
  · by_cases hun : (findMajority s).unreachable.length > 0
    · rw [if_pos hun, List.mem_singleton] at hu
      subst hu
      simp at hc
    · rw [if_neg hun] at hu
      exact absurd hu (List.not_mem_nil e)

/-- Witness for C2 at the 2-vs-1 fork snapshot. -/
theorem fork_event_suggested_action_witness :
    forkSnapEvent ∈ detectForks forkSnap ∧
    forkSnapEvent.condition = HealthCondition.FORK_DETECTED ∧
    ((forkSnapEvent.suggestedAction = some RestartGroup.IndividualNode ↔
      (findMajority forkSnap).minorityNodes.length <
        (findMajority forkSnap).majorityNodes.length) ∧
    (forkSnapEvent.suggestedAction = some RestartGroup.FullLayer ↔
      (findMajority forkSnap).majorityNodes.length ≤
        (findMajority forkSnap).minorityNodes.length)) :=
  ⟨by decide, by decide,
    fork_event_suggested_action forkSnap forkSnapEvent (by decide) (by decide)⟩

/-- C3: error (unreachable) views never contribute to the minority
partition: with at least one error view and at least one view overall,
the unreachable node set is reported as `NODE_UNREACHABLE`; the fork
events are exactly those of the healthy restriction of the snapshot
(so no fork event arises on account of the error views); and when every
view is an error view the only event is `NODE_UNREACHABLE` for the full
set. -/
theorem error_views_reported_not_forked (s : ClusterSnapshot)
    (hne : s.views ≠ [])
    (herr : ∃ v ∈ s.views, errTruthy v.error = true) :
    (∃ e ∈ detectForks s, e.condition = HealthCondition.NODE_UNREACHABLE ∧
      e.nodeIds = errorNodeIds s) ∧
    forkEvents s = forkEvents (healthySnapshot s) ∧
    ((∀ v ∈ s.views, errTruthy v.error = true) →
      (detectForks s).map (fun e => (e.condition, e.nodeIds)) =
        [(HealthCondition.NODE_UNREACHABLE,
          s.views.map (fun v => v.nodeId))]) := by
  have hul : (findMajority s).unreachable = errorNodeIds s :=
    findMajority_unreachable s
  have hpos : 0 < (errorNodeIds s).length := by
    obtain ⟨v, hv, hp⟩ := herr
    have hvf : v ∈ s.views.filter (fun v => errTruthy v.error) :=
      List.mem_filter.mpr ⟨hv, hp⟩
    have hne' : s.views.filter (fun v => errTruthy v.error) ≠ [] :=
      List.ne_nil_of_mem hvf
    unfold errorNodeIds
    simpa using List.length_pos.mpr hne'
  have hlen : (findMajority s).unreachable.length > 0 := by
    rw [hul]
    exact hpos
  refine ⟨?_, forkEvents_healthy s, ?_⟩
  · simp only [detectForks]
    rw [if_pos hlen]
    exact ⟨_, List.mem_append_right _ (List.mem_singleton_self _), rfl, hul⟩
  · intro hall
    have hfilter : s.views.filter (fun v => errTruthy v.error) = s.views :=
      List.filter_eq_self.mpr hall
    have hhealthy : s.views.filter (fun v => !errTruthy v.error) = [] := by
      rw [List.filter_eq_nil_iff]
      intro v hv
      simp [hall v hv]
    have hgs : keyGroups s = [] := by
      unfold keyGroups
      rw [foldl_skip, hhealthy]
      rfl
    have hfm : findMajority s =
        { majorityKey := "EMPTY", majorityNodes := [], minorityNodes := []
          unreachable := errorNodeIds s } := by
      unfold findMajority
      simp [hgs, errorNodeIds]
    have hvl : 0 < s.views.length := List.length_pos.mpr hne
    simp only [detectForks, hfm]
    simp [hpos, errorNodeIds, hfilter, hvl]

/-- Witness for C3 at the all-error snapshot. -/
theorem error_views_reported_not_forked_witness :
    allErrSnap.views ≠ [] ∧
    (∃ v ∈ allErrSnap.views, errTruthy v.error = true) ∧
    ((∃ e ∈ detectForks allErrSnap,
        e.condition = HealthCondition.NODE_UNREACHABLE ∧
        e.nodeIds = errorNodeIds allErrSnap) ∧
      forkEvents allErrSnap = forkEvents (healthySnapshot allErrSnap) ∧
      ((∀ v ∈ allErrSnap.views, errTruthy v.error = true) →
        (detectForks allErrSnap).map (fun e => (e.condition, e.nodeIds)) =
          [(HealthCondition.NODE_UNREACHABLE,
            allErrSnap.views.map (fun v => v.nodeId))])) :=
  ⟨by decide, by decide,
    error_views_reported_not_forked allErrSnap (by decide) (by decide)⟩

/-- C4 counterexample: in `tieSnap` the two healthy key groups `"b"`
and `"a"` tie at the maximal size 1 and `"a"` is lexicographically
smaller, yet `findMajority` picks the `"b"` group (the first inserted),
refuting the claimed lexicographic tie-break. -/
theorem majority_tie_not_lexicographic :
    (keyGroups tieSnap).map (fun g => (g.1, g.2.length)) =
      [("b", 1), ("a", 1)] ∧
    strLe "a" "b" = true ∧ ("a" : String) ≠ "b" ∧
    (findMajority tieSnap).majorityKey = "b" ∧
    (findMajority tieSnap).majorityNodes = ["1"] ∧
    (findMajority tieSnap).minorityNodes = ["2"] := by decide

/-- C4 (amended): the majority partition is a healthy key group of
maximal size, and ties among maximal groups are broken by insertion
order — the group whose key first appears in the views list wins (every
group listed before the majority is strictly smaller, every group after
it is no larger) — not by lexicographic key order. -/
theorem majority_first_insertion_wins (s : ClusterSnapshot)
    (h : keyGroups s ≠ []) :
    ∃ l₁ l₂,
      keyGroups s =
        l₁ ++ ((findMajority s).majorityKey,
          (findMajority s).majorityNodes) :: l₂ ∧
      (∀ g ∈ l₁, g.2.length < (findMajority s).majorityNodes.length) ∧
      (∀ g ∈ l₂, g.2.length ≤ (findMajority s).majorityNodes.length) := by
  have hmajk : (findMajority s).majorityKey =
      (selectMajority ("", []) (keyGroups s)).1 := by
    unfold findMajority
    simp [h]
  have hmajn : (findMajority s).majorityNodes =
      (selectMajority ("", []) (keyGroups s)).2 := by
    unfold findMajority
    simp [h]
  rcases selectMajority_spec ("", []) (keyGroups s) with
    ⟨heq, hall⟩ | ⟨l₁, l₂, hsplit, hlt, hbefore, hafter⟩
  · exfalso
    obtain ⟨g, hg⟩ := List.exists_mem_of_ne_nil (keyGroups s) h
    have hgne := keyGroups_groups_ne s g hg
    have hle := hall g hg
    simp only [List.length_nil, Nat.le_zero] at hle
    exact hgne (List.length_eq_zero.mp hle)
  · refine ⟨l₁, l₂, ?_, ?_, ?_⟩
    · rw [hmajk, hmajn]
      simpa using hsplit
    · intro g hg
      rw [hmajn]
      exact hbefore g hg
    · intro g hg
      rw [hmajn]
      exact hafter g hg

/-- Witness for the amended C4 at the tied snapshot. -/
theorem majority_first_insertion_wins_witness :
    keyGroups tieSnap ≠ [] ∧
    (∃ l₁ l₂,
      keyGroups tieSnap =
        l₁ ++ ((findMajority tieSnap).majorityKey,
          (findMajority tieSnap).majorityNodes) :: l₂ ∧
      (∀ g ∈ l₁, g.2.length < (findMajority tieSnap).majorityNodes.length) ∧
      (∀ g ∈ l₂,
        g.2.length ≤ (findMajority tieSnap).majorityNodes.length)) :=
  ⟨by decide, majority_first_insertion_wins tieSnap (by decide)⟩

/-- C5: the stall tracker never decreases `lastOrdinal`: an update whose
ordinal is less than or equal to the recorded `lastOrdinal` leaves the
whole state (both `lastOrdinal` and `lastChanged`) unchanged and
returns `false` (stalled); an update that changes the state can only be
a first observation or a strictly larger ordinal; and over every
sequence of updates the recorded `lastOrdinal` of every key is
non-decreasing. -/
theorem stallTracker_never_decreases :
    (∀ (t : StallTracker) (snap : OrdinalSnapshot) (now prev : Int),
      mapGet t.lastOrdinal
        (StallTracker.key snap.nodeId snap.layer.str) = some prev →
      snap.ordinal ≤ prev →
      t.update snap now = (t, false)) ∧
    (∀ (t : StallTracker) (snap : OrdinalSnapshot) (now : Int),
      (t.update snap now).2 = true →
      mapGet t.lastOrdinal (StallTracker.key snap.nodeId snap.layer.str)
          = none ∨
      (∃ prev, mapGet t.lastOrdinal
          (StallTracker.key snap.nodeId snap.layer.str) = some prev ∧
        prev < snap.ordinal)) ∧
    (∀ (t : StallTracker) (updates : List (OrdinalSnapshot × Int))
        (k : String) (v : Int),
      mapGet t.lastOrdinal k = some v →
      ∃ v', mapGet (applyUpdates t updates).lastOrdinal k = some v' ∧
        v ≤ v') := by
  refine ⟨?_, ?_, ?_⟩
  · intro t snap now prev hprev hle
    unfold StallTracker.update
    simp only [hprev]
    rw [if_neg (not_lt.mpr hle)]
  · intro t snap now hb
    unfold StallTracker.update at hb
    cases hprev : mapGet t.lastOrdinal
        (StallTracker.key snap.nodeId snap.layer.str) with
    | none => exact Or.inl rfl
    | some prev =>
      by_cases hgt : snap.ordinal > prev
      · exact Or.inr ⟨prev, rfl, hgt⟩
      · exfalso
        simp only [hprev] at hb
        rw [if_neg hgt] at hb
        exact absurd hb (by simp)
  · intro t updates k v h
    induction updates generalizing t v with
    | nil => exact ⟨v, h, le_refl v⟩
    | cons su rest ih =>
      simp only [applyUpdates, List.foldl_cons]
      obtain ⟨v₁, h₁, hle₁⟩ := update_lastOrdinal_mono t su.1 su.2 k v h
      obtain ⟨v₂, h₂, hle₂⟩ := ih (t.update su.1 su.2).1 v₁ h₁
      exact ⟨v₂, h₂, le_trans hle₁ hle₂⟩

/-- Witness for C5: an update with a lower ordinal (3 against recorded
5) leaves the tracker untouched and reports stalled. -/
theorem stallTracker_never_decreases_witness :
    mapGet trackerEx.lastOrdinal
      (StallTracker.key snapEx.nodeId snapEx.layer.str) = some 5 ∧
    snapEx.ordinal ≤ (5 : Int) ∧
    trackerEx.update snapEx 200 = (trackerEx, false) :=
  ⟨by decide, by decide,
    stallTracker_never_decreases.1 trackerEx snapEx 200 5
      (by decide) (by decide)⟩

/-- C6: per tick the stall detector queries nodes in configured order
and uses the first non-negative ordinal as the canonical ordinal; if no
node yields a non-negative ordinal it emits no stall event; and if the
canonical ordinal has been unchanged for at least
`snapshotStallMinutes` it emits a `SnapshotsStopped` detection with
restart scope `full-metagraph`, affected layers `[ml0, cl1, dl1]`, and
all nodes affected. -/
theorem snapshots_stopped_detection (ordinals : List Int)
    (nodeIps : List String) (m : Int) (st : StallGuardState) (now : Int) :
    ((∀ o ∈ ordinals, o < 0) →
      (detectSnapshotsStopped ordinals nodeIps m st now).2.detected
        = false) ∧
    (0 ≤ firstNonNegOrdinal ordinals →
      ∃ l₁ l₂, ordinals = l₁ ++ firstNonNegOrdinal ordinals :: l₂ ∧
        ∀ o ∈ l₁, o < 0) ∧
    (0 ≤ firstNonNegOrdinal ordinals →
      firstNonNegOrdinal ordinals = st.lastKnownOrdinal →
      now - st.lastOrdinalChangeTime ≥ m * 60000 →
      (detectSnapshotsStopped ordinals nodeIps m st now).2.detected
          = true ∧
      (detectSnapshotsStopped ordinals nodeIps m st now).2.condition =
        WatchCondition.SnapshotsStopped ∧
      (detectSnapshotsStopped ordinals nodeIps m st now).2.restartScope =
        RestartScope.fullMetagraph ∧
      (detectSnapshotsStopped ordinals nodeIps m st now).2.affectedLayers =
        some [WatchLayer.ml0, WatchLayer.cl1, WatchLayer.dl1] ∧
      (detectSnapshotsStopped ordinals nodeIps m st now).2.affectedNodes =
        some nodeIps) := by
  refine ⟨?_, ?_, ?_⟩
  · intro hall
    have hneg : firstNonNegOrdinal ordinals < 0 := by
      rcases firstNonNegOrdinal_spec ordinals with
        ⟨heq, _⟩ | ⟨l₁, l₂, hsplit, hnn, _⟩
      · rw [heq]
        norm_num
      · have hmem : firstNonNegOrdinal ordinals ∈ ordinals := by
          have h2 : firstNonNegOrdinal ordinals ∈
              l₁ ++ firstNonNegOrdinal ordinals :: l₂ :=
            List.mem_append_right _ (List.mem_cons_self _ _)
          rw [← hsplit] at h2
          exact h2
        exact absurd hnn (not_le.mpr (hall _ hmem))
    simp [detectSnapshotsStopped, hneg]
  · intro hnn
    rcases firstNonNegOrdinal_spec ordinals with
      ⟨heq, _⟩ | ⟨l₁, l₂, hsplit, _, hneg⟩
    · rw [heq] at hnn
      norm_num at hnn
    · exact ⟨l₁, l₂, hsplit, hneg⟩
  · intro hnn heq hstall
    rw [heq] at hnn
    have hnotlt : ¬ st.lastKnownOrdinal < 0 := not_lt.mpr hnn
    simp [detectSnapshotsStopped, heq, hstall, hnotlt]

/-- Witness for C6: ordinal 500 from the second node (first node
unreachable), unchanged since t = 0, checked at t = 250000 ms against a
4-minute threshold. -/
theorem snapshots_stopped_detection_witness :
    (0 : Int) ≤ firstNonNegOrdinal [-1, 500] ∧
    firstNonNegOrdinal [-1, 500] = stallStEx.lastKnownOrdinal ∧
    (250000 : Int) - stallStEx.lastOrdinalChangeTime ≥ 4 * 60000 ∧
    ((detectSnapshotsStopped [-1, 500] ipsEx 4 stallStEx 250000).2.detected
        = true ∧
      (detectSnapshotsStopped [-1, 500] ipsEx 4 stallStEx 250000).2.condition
        = WatchCondition.SnapshotsStopped ∧
      (detectSnapshotsStopped [-1, 500] ipsEx 4 stallStEx
          250000).2.restartScope = RestartScope.fullMetagraph ∧
      (detectSnapshotsStopped [-1, 500] ipsEx 4 stallStEx
          250000).2.affectedLayers =
        some [WatchLayer.ml0, WatchLayer.cl1, WatchLayer.dl1] ∧
      (detectSnapshotsStopped [-1, 500] ipsEx 4 stallStEx
          250000).2.affectedNodes = some ipsEx) :=
  ⟨by decide, by decide, by decide,
    (snapshots_stopped_detection [-1, 500] ipsEx 4 stallStEx 250000).2.2
      (by decide) (by decide) (by decide)⟩

/-- A `Restarted` outcome of the gated path pushes a success record with
`finishedAt = now + dur` onto the history. -/
theorem executeRestartGated_restarted (mph : Int) (nodes : List NodeConfig)
    (records recs₁ : List RestartRecord) (res : DetectionResult)
    (now dur : Int) (failAt : Option Nat) (cmds₁ : List SshCommand)
    (h : executeRestartGated mph nodes records res now dur failAt =
      (recs₁, RestartOutcome.Restarted, cmds₁)) :
    recs₁ =
      { scope := res.restartScope, nodeIds := res.affectedNodes.getD []
        startedAt := now, finishedAt := now + dur, failed := false }
        :: records := by
  unfold executeRestartGated at h
  by_cases hr : mph ≤
      ((records.filter (fun r => now - r.startedAt < 3600000)).length : Int)
  · rw [if_pos hr] at h
    exact absurd (congrArg (fun p => p.2.1) h) (by simp)
  · rw [if_neg hr] at h
    cases failAt with
    | some i =>
      simp only [] at h
      by_cases hi : i < (restartCommands nodes res).length
      · rw [if_pos hi] at h
        exact absurd (congrArg (fun p => p.2.1) h) (by simp)
      · rw [if_neg hi] at h
        exact (congrArg (fun p => p.1) h).symm
    | none =>
      simp only [] at h
      exact (congrArg (fun p => p.1) h).symm

/-- C7 (spec-modelled): calling the restart orchestrator a second time
while the most recent restart finished within `restartCooldownMinutes`
returns `Skipped(cooldown)`, performs no command-port (SSH) invocations,
and leaves the restart-record state unchanged. -/
theorem orchestrator_cooldown_skips (cd mph : Int) (nodes : List NodeConfig)
    (records recs₁ : List RestartRecord) (res res₂ : DetectionResult)
    (now dur now₂ dur₂ : Int) (failAt failAt₂ : Option Nat)
    (cmds₁ : List SshCommand)
    (h₁ : executeRestart cd mph nodes records res now dur failAt =
      (recs₁, RestartOutcome.Restarted, cmds₁))
    (hwin : now₂ - (now + dur) < cd * 60000) :
    executeRestart cd mph nodes recs₁ res₂ now₂ dur₂ failAt₂ =
      (recs₁, RestartOutcome.SkippedCooldown, []) := by
  have hrec : recs₁ =
      { scope := res.restartScope, nodeIds := res.affectedNodes.getD []
        startedAt := now, finishedAt := now + dur, failed := false }
        :: records := by
    unfold executeRestart at h₁
    cases hh : records.head? with
    | some r =>
      rw [hh] at h₁
      simp only [] at h₁
      by_cases hc : now - r.finishedAt < cd * 60000
      · rw [if_pos hc] at h₁
        exact absurd (congrArg (fun p => p.2.1) h₁) (by simp)
      · rw [if_neg hc] at h₁
        exact executeRestartGated_restarted mph nodes records recs₁ res
          now dur failAt cmds₁ h₁
    | none =>
      rw [hh] at h₁
      simp only [] at h₁
      exact executeRestartGated_restarted mph nodes records recs₁ res
        now dur failAt cmds₁ h₁
  unfold executeRestart
  rw [hrec]
  simp only [List.head?_cons]
  rw [if_pos hwin]

/-- Witness for C7: a performed individual-node restart at t = 0 lasting
1 s, followed by a second call at t = 2 s with a 10-minute cooldown. -/
theorem orchestrator_cooldown_skips_witness :
    executeRestart 10 6 nodesEx [] resEx 0 1000 Option.none =
      ([{ scope := RestartScope.individualNode, nodeIds := ["10.0.0.2"]
          startedAt := 0, finishedAt := 1000, failed := false }],
        RestartOutcome.Restarted,
        [SshCommand.stop "10.0.0.2" WatchLayer.ml0,
          SshCommand.startAndJoin "10.0.0.2" WatchLayer.ml0 "10.0.0.1"]) ∧
    (2000 : Int) - (0 + 1000) < 10 * 60000 ∧
    executeRestart 10 6 nodesEx
        [{ scope := RestartScope.individualNode, nodeIds := ["10.0.0.2"]
           startedAt := 0, finishedAt := 1000, failed := false }]
        resEx 2000 500 Option.none =
      ([{ scope := RestartScope.individualNode, nodeIds := ["10.0.0.2"]
          startedAt := 0, finishedAt := 1000, failed := false }],
        RestartOutcome.SkippedCooldown, []) :=
  ⟨by decide, by decide,
    orchestrator_cooldown_skips 10 6 nodesEx []
      [{ scope := RestartScope.individualNode, nodeIds := ["10.0.0.2"]
         startedAt := 0, finishedAt := 1000, failed := false }]
      resEx resEx 0 1000 2000 500 Option.none Option.none
      [SshCommand.stop "10.0.0.2" WatchLayer.ml0,
        SshCommand.startAndJoin "10.0.0.2" WatchLayer.ml0 "10.0.0.1"]
      (by decide) (by decide)⟩

/-- C8 counterexample: a successful poll whose endpoint returns an empty
JSON array yields a view with empty peers and no error, refuting the
claimed equivalence `error ≠ null ⟺ peers = ∅` (a successfully polled
view can have an empty peers list). -/
theorem poll_empty_array_no_error :
    (pollNodeCluster nodeInfoEx .GL0 (.arr []) "t").error = Option.none ∧
    (pollNodeCluster nodeInfoEx .GL0 (.arr []) "t").peers = [] := by decide

/-- C8 (amended): for every view produced by `pollNodeCluster`, a
non-null error implies an empty peers list; the converse direction of
the original claim fails (see the counterexample), since a successful
poll may return an empty array or a non-array body. -/
theorem poll_error_implies_empty_peers (node : NodeInfo) (layer : LayerName)
    (oc : FetchOutcome) (nowIso msg : String)
    (h : (pollNodeCluster node layer oc nowIso).error = some msg) :
    (pollNodeCluster node layer oc nowIso).peers = [] := by
  cases hf : node.layers.find? (fun l => l.name = layer) with
  | none => simp only [pollNodeCluster, hf]
  | some lc =>
    cases oc with
    | arr data =>
      simp only [pollNodeCluster, hf] at h
      exact absurd h (by simp)
    | nonArr => simp only [pollNodeCluster, hf]
    | thrown m => simp only [pollNodeCluster, hf]

/-- Witness for the amended C8 at an unconfigured-layer poll. -/
theorem poll_error_implies_empty_peers_witness :
    (pollNodeCluster nodeInfoEx .ML0 (.arr [⟨"p", "Ready"⟩]) "t").error =
      some "Layer ML0 not configured for node 1" ∧
    (pollNodeCluster nodeInfoEx .ML0 (.arr [⟨"p", "Ready"⟩]) "t").peers
      = [] :=
  ⟨by decide,
    poll_error_implies_empty_peers nodeInfoEx .ML0 (.arr [⟨"p", "Ready"⟩])
      "t" "Layer ML0 not configured for node 1" (by decide)⟩

/-- C9: the canonical cluster key of a healthy view is invariant under
permutation of its peers list. -/
theorem clusterKey_perm_invariant (v : NodeClusterView)
    (peers' : List ClusterPeer) (herr : v.error = Option.none)
    (hperm : v.peers.Perm peers') :
    clusterKey v = clusterKey { v with peers := peers' } := by
  have he : errTruthy v.error = false := by
    rw [herr]
    rfl
  have key_eq : sortStrings (v.peers.map (fun p => p.id)) =
      sortStrings (peers'.map (fun p => p.id)) :=
    sortStrings_eq_of_perm (hperm.map _)
  simp [clusterKey, he, key_eq]

/-- Witness for C9 at a two-peer view and its transposition. -/
theorem clusterKey_perm_invariant_witness :
    (mkView "1" ["b", "a"]).error = Option.none ∧
    (mkView "1" ["b", "a"]).peers.Perm (mkView "1" ["a", "b"]).peers ∧
    clusterKey (mkView "1" ["b", "a"]) =
      clusterKey { mkView "1" ["b", "a"] with
        peers := (mkView "1" ["a", "b"]).peers } :=
  ⟨by decide, by decide,
    clusterKey_perm_invariant (mkView "1" ["b", "a"])
      (mkView "1" ["a", "b"]).peers (by decide) (by decide)⟩

/-- Helper for C10: when every state carries the same ordinal, the
grouping fold produces a single group containing every node id. -/
theorem ordinalCount_const (c : Int) :
    ∀ (states : List GL0NodeState) (acc : List String),
      (∀ s ∈ states, s.ordinal = c) →
      states.foldl (fun gs s => insertGroup gs s.ordinal s.nodeId)
          [(c, acc)] =
        [(c, acc ++ states.map (fun s => s.nodeId))]
  | [], acc, _ => by simp
  | s :: rest, acc, hall => by
    have hc : s.ordinal = c := hall s (List.mem_cons_self _ _)
    have hstep : insertGroup [(c, acc)] s.ordinal s.nodeId =
        [(c, acc ++ [s.nodeId])] := by
      rw [hc]
      simp [insertGroup]
    simp only [List.foldl_cons, hstep]
    rw [ordinalCount_const c rest (acc ++ [s.nodeId])
      (fun s' hs' => hall s' (List.mem_cons_of_mem _ hs'))]
    simp

/-- C10: `detectGL0Fork` returns no event for fewer than two states and
for unanimous ordinals; every event it does return is `FORK_DETECTED`
on layer GL0 with `suggestedAction = IndividualNode` (regardless of
partition sizes) and `nodeIds` exactly the nodes whose ordinal differs
from the majority ordinal. -/
theorem gl0_fork_events (states : List GL0NodeState) (ts : String) :
    (states.length < 2 → detectGL0Fork states ts = Option.none) ∧
    (∀ c : Int, (∀ s ∈ states, s.ordinal = c) →
      detectGL0Fork states ts = Option.none) ∧
    (∀ e, detectGL0Fork states ts = some e →
      e.condition = HealthCondition.FORK_DETECTED ∧
      e.layer = LayerName.GL0 ∧
      e.suggestedAction = some RestartGroup.IndividualNode ∧
      e.nodeIds = (states.filter
        (fun s => decide (s.ordinal ≠ gl0MajorityOrdinal states))).map
          (fun s => s.nodeId)) := by
  refine ⟨?_, ?_, ?_⟩
  · intro h
    unfold detectGL0Fork
    rw [if_pos h]
  · intro c hall
    by_cases h2 : states.length < 2
    · unfold detectGL0Fork
      rw [if_pos h2]
    · cases states with
      | nil => simp at h2
      | cons s rest =>
        have hc : s.ordinal = c := hall s (List.mem_cons_self _ _)
        have hcount : ordinalCount (s :: rest) =
            [(c, (s :: rest).map (fun s => s.nodeId))] := by
          unfold ordinalCount
          have hfirst : insertGroup ([] : List (Int × List String))
              s.ordinal s.nodeId = [(c, [s.nodeId])] := by
            rw [hc]
            simp [insertGroup]
          simp only [List.foldl_cons, hfirst]
          rw [ordinalCount_const c rest [s.nodeId]
            (fun s' hs' => hall s' (List.mem_cons_of_mem _ hs'))]
          simp
        have hsel : selectMajority (0, ([] : List String))
            [(c, (s :: rest).map (fun s => s.nodeId))] =
            (c, (s :: rest).map (fun s => s.nodeId)) := by
          simp [selectMajority]
        have hfil : (s :: rest).filter (fun s => decide (s.ordinal ≠ c))
            = [] := by
          rw [List.filter_eq_nil_iff]
          intro a ha
          simp [hall a ha]
        unfold detectGL0Fork
        rw [if_neg h2]
        simp only [hcount, hsel, hfil]
        simp [hfil]
  · intro e he
    unfold detectGL0Fork at he
    by_cases h2 : states.length < 2
    · rw [if_pos h2] at he
      exact absurd he (by simp)
    · rw [if_neg h2] at he
      simp only [] at he
      by_cases hm : ((states.filter (fun s => decide (s.ordinal ≠
          (selectMajority (0, ([] : List String))
            (ordinalCount states)).1))).map (fun s => s.nodeId)).length
          = 0
      · rw [if_pos hm] at he
        exact absurd he (by simp)
      · rw [if_neg hm] at he
        have hee := Option.some.inj he
        rw [← hee]
        exact ⟨rfl, rfl, rfl, rfl⟩

/-- Witness for C10 at a 2-vs-1 ordinal split. -/
theorem gl0_fork_events_witness :
    detectGL0Fork [⟨"1", 6200⟩, ⟨"2", 6200⟩, ⟨"3", 5548⟩] "t" =
      some { condition := .FORK_DETECTED, layer := .GL0, nodeIds := ["3"]
             description := "GL0 fork: node(s) 3 are at divergent ordinals (majority: 6200)"
             timestamp := "t", suggestedAction := some .IndividualNode } ∧
    (({ condition := .FORK_DETECTED, layer := .GL0, nodeIds := ["3"]
        description := "GL0 fork: node(s) 3 are at divergent ordinals (majority: 6200)"
        timestamp := "t",
        suggestedAction := some .IndividualNode } : HealthEvent).condition =
          HealthCondition.FORK_DETECTED ∧
      ({ condition := .FORK_DETECTED, layer := .GL0, nodeIds := ["3"]
         description := "GL0 fork: node(s) 3 are at divergent ordinals (majority: 6200)"
         timestamp := "t",
         suggestedAction := some .IndividualNode } : HealthEvent).layer =
           LayerName.GL0 ∧
      ({ condition := .FORK_DETECTED, layer := .GL0, nodeIds := ["3"]
         description := "GL0 fork: node(s) 3 are at divergent ordinals (majority: 6200)"
         timestamp := "t",
         suggestedAction := some .IndividualNode } :
           HealthEvent).suggestedAction = some RestartGroup.IndividualNode ∧
      ({ condition := .FORK_DETECTED, layer := .GL0, nodeIds := ["3"]
         description := "GL0 fork: node(s) 3 are at divergent ordinals (majority: 6200)"
         timestamp := "t",
         suggestedAction := some .IndividualNode } : HealthEvent).nodeIds =
        (([⟨"1", 6200⟩, ⟨"2", 6200⟩, ⟨"3", 5548⟩] :
            List GL0NodeState).filter
          (fun s => decide (s.ordinal ≠ gl0MajorityOrdinal
            [⟨"1", 6200⟩, ⟨"2", 6200⟩, ⟨"3", 5548⟩]))).map
          (fun s => s.nodeId)) :=
  ⟨by decide,
    (gl0_fork_events [⟨"1", 6200⟩, ⟨"2", 6200⟩, ⟨"3", 5548⟩] "t").2.2 _
      (by decide)⟩

/-- C1 counterexample: when the fork detector reports a detected
condition but the orchestrator skips the restart, the stall and
unhealthy-node detectors still run within the same tick — refuting the
claim that no further detector runs after any detected condition. -/
theorem tick_continues_after_skipped_restart :
    runHealthCheck ⟨true, false⟩ ⟨false, false⟩ ⟨false, false⟩ =
      [.ranDetector .ForkedCluster, .ranDetector .SnapshotsStopped,
        .ranDetector .UnhealthyNodes] ∧
    TickAction.ranDetector .SnapshotsStopped ∈
      runHealthCheck ⟨true, false⟩ ⟨false, false⟩ ⟨false, false⟩ ∧
    TickAction.ranDetector .UnhealthyNodes ∈
      runHealthCheck ⟨true, false⟩ ⟨false, false⟩ ⟨false, false⟩ := by
  decide

/-- C1 (amended): the engine runs the detectors in the priority order
fork, stall, unhealthy-nodes, and stops early exactly at the first
detected condition whose restart is actually performed; when the
orchestrator skips the restart (cooldown/rate-limit) the remaining
detectors still run within the same tick. -/
theorem tick_stops_only_on_performed_restart :
    (∀ (l₁ : List (WatchCondition × ConditionOutcome)) (c : WatchCondition)
        (o : ConditionOutcome) (l₂ : List (WatchCondition × ConditionOutcome)),
      (∀ p ∈ l₁, p.2.detected = false ∨ p.2.restarted = false) →
      o.detected = true → o.restarted = true →
      runConditions (l₁ ++ (c, o) :: l₂) =
        l₁.map (fun p => .ranDetector p.1) ++
          [.ranDetector c, .restartPerformed c]) ∧
    (∀ l : List (WatchCondition × ConditionOutcome),
      (∀ p ∈ l, p.2.detected = false ∨ p.2.restarted = false) →
      runConditions l = l.map (fun p => .ranDetector p.1)) ∧
    (∀ fork stall unhealthy, runHealthCheck fork stall unhealthy =
      runConditions [(.ForkedCluster, fork), (.SnapshotsStopped, stall),
        (.UnhealthyNodes, unhealthy)]) := by
  refine ⟨?_, ?_, fun _ _ _ => rfl⟩
  · intro l₁ c o l₂ hskip hdet hres
    induction l₁ with
    | nil =>
      simp only [List.nil_append, runConditions, hdet, hres]
      simp
    | cons p t ih =>
      have ht : ∀ q ∈ t, q.2.detected = false ∨ q.2.restarted = false :=
        fun q hq => hskip q (List.mem_cons_of_mem _ hq)
      have hrest := ih ht
      obtain ⟨pc, po⟩ := p
      have hp : po.detected = false ∨ po.restarted = false :=
        hskip (pc, po) (List.mem_cons_self _ _)
      rcases hp with hd | hr
      · simp [runConditions, hd, hrest]
      · by_cases hd : po.detected = true
        · simp [runConditions, hd, hr, hrest]
        · have hd' : po.detected = false := by
            simpa using hd
          simp [runConditions, hd', hrest]
  · intro l hskip
    induction l with
    | nil => rfl
    | cons p t ih =>
      have ht : ∀ q ∈ t, q.2.detected = false ∨ q.2.restarted = false :=
        fun q hq => hskip q (List.mem_cons_of_mem _ hq)
      have hrest := ih ht
      obtain ⟨pc, po⟩ := p
      have hp : po.detected = false ∨ po.restarted = false :=
        hskip (pc, po) (List.mem_cons_self _ _)
      rcases hp with hd | hr
      · simp [runConditions, hd, hrest]
      · by_cases hd : po.detected = true
        · simp [runConditions, hd, hr, hrest]
        · have hd' : po.detected = false := by
            simpa using hd
          simp [runConditions, hd', hrest]

/-- Witness for the amended C1: fork detected but skipped, then a stall
detection whose restart is performed, with the unhealthy detector
never reached. -/
theorem tick_stops_only_on_performed_restart_witness :
    (∀ p ∈ [((WatchCondition.ForkedCluster : WatchCondition),
        (⟨true, false⟩ : ConditionOutcome))],
      p.2.detected = false ∨ p.2.restarted = false) ∧
    (⟨true, true⟩ : ConditionOutcome).detected = true ∧
    (⟨true, true⟩ : ConditionOutcome).restarted = true ∧
    runConditions ([(WatchCondition.ForkedCluster, ⟨true, false⟩)] ++
        (WatchCondition.SnapshotsStopped, ⟨true, true⟩) ::
          [(WatchCondition.UnhealthyNodes, ⟨false, false⟩)]) =
      [(WatchCondition.ForkedCluster,
          (⟨true, false⟩ : ConditionOutcome))].map
          (fun p => .ranDetector p.1) ++
        [.ranDetector .SnapshotsStopped,
          .restartPerformed .SnapshotsStopped] :=
  ⟨by decide, by decide, by decide,
    tick_stops_only_on_performed_restart.1
      [(WatchCondition.ForkedCluster, ⟨true, false⟩)]
      WatchCondition.SnapshotsStopped ⟨true, true⟩
      [(WatchCondition.UnhealthyNodes, ⟨false, false⟩)]
      (by decide) (by decide) (by decide)⟩

end Otto
